import Mathlib

/-!
Shallow embedding of the retrieval core of the `rag-mcp-poc` repository.

The authoritative file for the MCP server is `src/mcp_remote.ts`; the HTTP
server `scripts/server.ts` and the REPL `scripts/search.ts` contain a second
variant of the scoring pipeline (with a heading weight and a different source
weight table).  JavaScript numbers are modelled as ideal real numbers `ℝ`
(the similarity code is real arithmetic with `Math.sqrt`); JSON payloads are
modelled by the inductive `JSValue`, whose numbers carry the NaN/Infinity
distinction needed by `Number.isFinite`.  `a[i]` reads past the end of a list
are modelled by the default `0`; in JavaScript they produce `NaN`, so lemmas
about `dot` on unequal-length inputs are only asserted where the first vector
is at most as long as the second, the region where the model is exact.
-/

namespace RagMcp

/-- A JavaScript number as seen by `typeof x === "number"`: either a finite
value (modelled as an exact rational) or one of the non-finite values. -/
inductive JSNum where
  | finite (q : ℚ)
  | nan
  | posInf
  | negInf
deriving DecidableEq, Repr

/-- Embeds `Number.isFinite`. -/
def JSNum.isFinite : JSNum → Bool
  | .finite _ => true
  | _ => false

/-- Embeds `Math.trunc`: truncation toward zero (only used on finite values,
which is all the source applies it to after its `Number.isFinite` guard). -/
def JSNum.trunc : JSNum → Int
  | .finite q => if 0 ≤ q then ⌊q⌋ else ⌈q⌉
  | _ => 0

/-- A JSON-ish JavaScript value, the payload type reaching the `z.any()`
tool handlers of `src/mcp_remote.ts`. -/
inductive JSValue where
  | str (s : String)
  | num (n : JSNum)
  | jsBool (b : Bool)
  | nul
  | undef
  | obj (fields : List (String × JSValue))
  | arr (elems : List JSValue)

/-- First-match key lookup in an object's field list; embeds both the
`"key" in v` test (`isSome`) and the `v.key` read (the value). -/
def jlookup : List (String × JSValue) → String → Option JSValue
  | [], _ => none
  | (k, v) :: rest, key => if k = key then some v else jlookup rest key

theorem jlookup_sizeOf {fields : List (String × JSValue)} {key : String}
    {v : JSValue} (h : jlookup fields key = some v) :
    sizeOf v < sizeOf (JSValue.obj fields) := by
  induction fields with
  | nil => simp [jlookup] at h
  | cons p rest ih =>
    obtain ⟨k, w⟩ := p
    by_cases hk : k = key
    · simp [jlookup, hk] at h
      subst h
      simp
      omega
    · simp [jlookup, hk] at h
      have := ih h
      simp at this ⊢
      omega

/-- Embeds the inner `unwrap` closure that appears verbatim in both
`normalizeSearchArgs` and `normalizeFetchArgs` of `src/mcp_remote.ts`:
`if (!v || typeof v !== "object") return v; if ("arguments" in v) return
unwrap(v.arguments); if ("input" in v) return unwrap(v.input); return v;`.
Only `obj` values satisfy the truthy-object test (`null` is falsy, arrays
carry no string-keyed fields in JSON). -/
def unwrap (v : JSValue) : JSValue :=
  match v with
  | .obj fields =>
    match h : jlookup fields "arguments" with
    | some a => unwrap a
    | none =>
      match h2 : jlookup fields "input" with
      | some i => unwrap i
      | none => .obj fields
  | other => other
termination_by sizeOf v
decreasing_by
  · exact jlookup_sizeOf h
  · exact jlookup_sizeOf h2

/-- Embeds a `typeof x === "string" ? x : undefined` read of a field. -/
def strOf : Option JSValue → Option String
  | some (.str s) => some s
  | _ => none

/-- Embeds a `typeof x === "number"` test plus read of a field. -/
def numOf : Option JSValue → Option JSNum
  | some (.num n) => some n
  | _ => none

/-- The query string located after unwrapping: a bare string directly, or the
object's string-valued `query` field, else its string-valued `q` field
(`typeof o.query === "string" ? o.query : typeof o.q === "string" ? o.q :
undefined`). -/
def locateQuery : JSValue → Option String
  | .str s => some s
  | .obj fields =>
    (strOf (jlookup fields "query")).orElse fun _ => strOf (jlookup fields "q")
  | _ => none

/-- The `topK` extraction of `normalizeSearchArgs`:
`typeof o.topK === "number" && Number.isFinite(o.topK) ?
 Math.max(1, Math.min(20, Math.trunc(o.topK))) : DEFAULT_TOPK`. -/
def topKOf (fields : List (String × JSValue)) : Int :=
  match numOf (jlookup fields "topK") with
  | some n => if n.isFinite then max 1 (min 20 n.trunc) else 8
  | none => 8

/-- The canonical search call produced by the normalizer
(`{ query, topK }` in the source). -/
structure SearchArgs where
  query : String
  topK : Int
deriving DecidableEq, Repr

/-- Embeds `normalizeSearchArgs` of `src/mcp_remote.ts` (lines 75–111): unwrap
envelopes, then a bare string becomes `{query, topK: 8}`; an object yields its
`query`-else-`q` string together with the clamped `topK`; anything else falls
through to `{ query: "", topK: 8 }` for the later error path. -/
def normalizeSearchArgs (raw : JSValue) : SearchArgs :=
  match unwrap raw with
  | .str s => ⟨s, 8⟩
  | .obj fields =>
    match locateQuery (.obj fields) with
    | some q => ⟨q, topKOf fields⟩
    | none => ⟨"", 8⟩
  | _ => ⟨"", 8⟩

/-- Embeds `normalizeFetchArgs` of `src/mcp_remote.ts` (lines 113–131): same
unwrapping, then a bare string is the id, an object's string-valued `id` field
is the id, anything else is `""`. -/
def normalizeFetchArgs (raw : JSValue) : String :=
  match unwrap raw with
  | .str s => s
  | .obj fields =>
    match strOf (jlookup fields "id") with
    | some s => s
    | none => ""
  | _ => ""

/-- Embeds JavaScript's `String.prototype.trim`: strip leading and trailing
whitespace (written out on the character list so that proofs can evaluate
it; Lean's own `String.trim` is not reducible by the kernel). -/
def jsTrim (s : String) : String :=
  String.mk
    (((s.data.dropWhile Char.isWhitespace).reverse.dropWhile
      Char.isWhitespace).reverse)

/-- Chunk metadata `{ source, heading, part }` of the persisted index. -/
structure ChunkMeta where
  source : String
  heading : String
  part : Int
deriving DecidableEq, Repr

/-- An indexed chunk `{ id, text, meta, embedding }`; embeddings are lists of
ideal reals standing for the JavaScript float vectors. -/
structure IndexedChunk where
  id : String
  text : String
  meta : ChunkMeta
  embedding : List ℝ

/-- The persisted index file `{ model, chunks }`. -/
structure IndexFile where
  model : String
  chunks : List IndexedChunk

/-- Embeds `dot` (identical in `src/mcp_remote.ts`, `scripts/server.ts` and
`scripts/search.ts`): `let s = 0; for (let i = 0; i < a.length; i++)
s += a[i] * b[i]; return s;`.  Out-of-range reads of `b` are modelled by the
default `0` (JavaScript would yield `NaN`), so the model is exact exactly when
`a.length ≤ b.length`, which holds in every in-repo call. -/
noncomputable def dot (a b : List ℝ) : ℝ :=
  ∑ i in Finset.range a.length, a.getD i 0 * b.getD i 0

/-- Embeds `norm`: `Math.sqrt(dot(a, a))`. -/
noncomputable def norm (a : List ℝ) : ℝ :=
  Real.sqrt (dot a a)

/-- Embeds `cosineSim`: defined as `0` when either norm is exactly zero, else
`dot(a, b) / (na * nb)`. -/
noncomputable def cosineSim (a b : List ℝ) : ℝ :=
  let na := norm a
  let nb := norm b
  if na = 0 ∨ nb = 0 then 0 else dot a b / (na * nb)

/-- Embeds `sourceWeight` of `src/mcp_remote.ts` (lines 50–56). -/
noncomputable def sourceWeight (source : String) : ℝ :=
  if source = "docs/api.md" then 1.15
  else if source = "docs/architecture.md" then 1.1
  else if source = "docs/overview.md" then 1.05
  else if source = "docs/faq.md" then 0.95
  else 1.0

/-- Embeds `sourceWeight` of `scripts/server.ts` / `scripts/search.ts`, whose
table differs from the MCP server's (`docs/api.md` is `1.35` there). -/
noncomputable def srvSourceWeight (source : String) : ℝ :=
  if source = "docs/api.md" then 1.35
  else if source = "docs/architecture.md" then 1.05
  else if source = "docs/overview.md" then 1.05
  else if source = "docs/faq.md" then 0.95
  else 1.0

/-- Boolean prefix test on character lists, the building block for the
substring test below. -/
def isPrefixL : List Char → List Char → Bool
  | [], _ => true
  | _ :: _, [] => false
  | a :: as, b :: bs => a = b && isPrefixL as bs

/-- Substring occurrence test on character lists. -/
def hasSub (pat : List Char) : List Char → Bool
  | [] => isPrefixL pat []
  | c :: rest => isPrefixL pat (c :: rest) || hasSub pat rest

/-- Embeds JavaScript's `s.includes(pat)`. -/
def jsIncludes (s pat : String) : Bool :=
  hasSub pat.toList s.toList

/-- Embeds `headingWeight` of `scripts/server.ts` / `scripts/search.ts`,
flattened from the nested `if` blocks: inside a matched query-keyword block
the heading checks run in order; an unmatched block falls through to the next
keyword family; no match yields the neutral `1.0`. -/
noncomputable def headingWeight (heading query : String) : ℝ :=
  if jsIncludes query "リトライ" && jsIncludes heading "リトライ" then 1.35
  else if jsIncludes query "リトライ" && jsIncludes heading "バックオフ" then 1.25
  else if jsIncludes query "リトライ" && jsIncludes heading "POST /v1/orders" then 1.05
  else if jsIncludes query "認証" && (jsIncludes heading "OAuth" || jsIncludes heading "認証") then 1.25
  else 1.0

/-- One scored entry `{ chunk, score, weighted }` of the ranking pipelines. -/
structure Scored where
  chunk : IndexedChunk
  score : ℝ
  weighted : ℝ

/-- The comparator `(a, b) => b.weighted - a.weighted` of the `.sort` calls,
as the total preorder it realizes: `a` may precede `b` iff
`b.weighted ≤ a.weighted` (descending by `weighted`). -/
def byWeightedDesc (a b : Scored) : Prop :=
  b.weighted ≤ a.weighted

noncomputable instance : DecidableRel byWeightedDesc :=
  fun a b => inferInstanceAs (Decidable (b.weighted ≤ a.weighted))

instance : IsTotal Scored byWeightedDesc :=
  ⟨fun a b => le_total b.weighted a.weighted⟩

instance : IsTrans Scored byWeightedDesc :=
  ⟨fun _ _ _ h₁ h₂ => le_trans h₂ h₁⟩

/-- Embeds the scoring pipeline of the `search` tool handler in
`src/mcp_remote.ts` (lines 171–178): map each chunk to
`{ chunk, score: cosineSim(qEmb, c.embedding),
   weighted: score * sourceWeight(c.meta.source) }`, sort by `weighted`
descending (JavaScript's `Array.sort` is stable, so a stable sort embeds the
comparator faithfully), and `slice(0, topK)`. -/
noncomputable def mcpRank (qEmb : List ℝ) (chunks : List IndexedChunk)
    (topK : ℕ) : List Scored :=
  ((chunks.map fun c =>
      let score := cosineSim qEmb c.embedding
      ({ chunk := c, score := score,
         weighted := score * sourceWeight c.meta.source } : Scored)).insertionSort
    byWeightedDesc).take topK

/-- Embeds the scoring pipeline of the `/search` handler in
`scripts/server.ts` (lines 102–112), which multiplies in `headingWeight` and
uses that file's `sourceWeight` table; `scripts/search.ts` runs the same
pipeline with `topK` fixed to 5. -/
noncomputable def srvRank (qEmb : List ℝ) (chunks : List IndexedChunk)
    (query : String) (topK : ℕ) : List Scored :=
  ((chunks.map fun c =>
      let score := cosineSim qEmb c.embedding
      ({ chunk := c, score := score,
         weighted := score * srvSourceWeight c.meta.source *
           headingWeight c.meta.heading query } : Scored)).insertionSort
    byWeightedDesc).take topK

/-- The citation base URL; `process.env.DOC_BASE_URL` defaults to this
constant in `src/mcp_remote.ts`. -/
def DOC_BASE_URL : String :=
  "https://github.com/Kou0402/rag-mcp-poc/blob/develop/"

/-- Embeds `canonicalUrlFor`. -/
def canonicalUrlFor (meta : ChunkMeta) : String :=
  DOC_BASE_URL ++ meta.source

/-- A `{ id, title, url }` search result item. -/
structure SearchItem where
  id : String
  title : String
  url : String
deriving DecidableEq, Repr

/-- The JSON payload the search handler serializes into `content[0].text`. -/
inductive SearchPayload where
  | errTag (error message : String)
  | results (items : List SearchItem)

/-- A search tool response: the optional `isError` flag (absent means `false`)
plus the serialized payload. -/
structure SearchResponse where
  isError : Bool
  payload : SearchPayload

/-- The `metadata` field of a fetch document: the chunk's own meta on a hit,
or `{ error: "not_found" }` on a miss. -/
inductive FetchMetaVal where
  | chunkMeta (m : ChunkMeta)
  | errMeta (error : String)
deriving DecidableEq, Repr

/-- The JSON payload the fetch handler serializes into `content[0].text`. -/
inductive FetchPayload where
  | errTag (error message : String)
  | doc (id title text url : String) (metadata : FetchMetaVal)

/-- A fetch tool response: the optional `isError` flag plus the payload. -/
structure FetchResponse where
  isError : Bool
  payload : FetchPayload

/-- Embeds the `search` tool handler of `src/mcp_remote.ts` (lines 148–204).
The one awaited effect, `embedQuery`, is passed in as a function returning
either the query vector or the message of a thrown error; the surrounding
`try/catch` maps a thrown embedding error to the `search_failed` tag. -/
noncomputable def searchTool (index : IndexFile)
    (embed : String → Except String (List ℝ)) (args : JSValue) :
    SearchResponse :=
  let na := normalizeSearchArgs args
  let q := jsTrim na.query
  if q = "" then
    ⟨true, .errTag "invalid_query"
      "search arguments did not contain a valid query string"⟩
  else
    match embed q with
    | .error m => ⟨true, .errTag "search_failed" m⟩
    | .ok qEmb =>
      ⟨false, .results ((mcpRank qEmb index.chunks na.topK.toNat).map fun s =>
        ⟨s.chunk.id,
         s.chunk.meta.heading ++ " (" ++ s.chunk.meta.source ++ ")",
         canonicalUrlFor s.chunk.meta⟩)⟩

/-- Embeds the `fetch` tool handler of `src/mcp_remote.ts` (lines 211–275):
trim the normalized id; empty means the tagged `invalid_id` error; a linear
`find` miss yields the structured NOT_FOUND document with `isError: true`;
a hit yields the full document with `isError` absent. -/
def fetchTool (index : IndexFile) (args : JSValue) : FetchResponse :=
  let id := jsTrim (normalizeFetchArgs args)
  if id = "" then
    ⟨true, .errTag "invalid_id"
      "fetch arguments did not contain a valid id string"⟩
  else
    match index.chunks.find? (fun c => c.id == id) with
    | none =>
      ⟨true, .doc id "NOT_FOUND" "" DOC_BASE_URL (.errMeta "not_found")⟩
    | some hit =>
      ⟨false, .doc hit.id
        (hit.meta.heading ++ " (" ++ hit.meta.source ++ ")")
        hit.text (canonicalUrlFor hit.meta) (.chunkMeta hit.meta)⟩

end RagMcp

namespace RagMcp

theorem unwrap_nonobj (v : JSValue) (hv : ∀ fields, v ≠ .obj fields) :
    unwrap v = v := by
  cases v
  case obj fields => exact absurd rfl (hv fields)
  all_goals (unfold unwrap; rfl)

theorem unwrap_args {fields : List (String × JSValue)} {a : JSValue}
    (h : jlookup fields "arguments" = some a) :
    unwrap (.obj fields) = unwrap a := by
  rw [unwrap]
  split
  · rename_i a' ha
    rw [ha] at h
    injection h with h
    rw [h]
  · rename_i ha
    rw [ha] at h
    cases h

theorem unwrap_input {fields : List (String × JSValue)} {i : JSValue}
    (h : jlookup fields "arguments" = none)
    (h2 : jlookup fields "input" = some i) :
    unwrap (.obj fields) = unwrap i := by
  rw [unwrap]
  split
  · rename_i a' ha
    rw [ha] at h
    cases h
  · split
    · rename_i i' hi
      rw [hi] at h2
      injection h2 with h2
      rw [h2]
    · rename_i hi
      rw [hi] at h2
      cases h2

theorem unwrap_obj_self {fields : List (String × JSValue)}
    (h : jlookup fields "arguments" = none)
    (h2 : jlookup fields "input" = none) :
    unwrap (.obj fields) = .obj fields := by
  rw [unwrap]
  split
  · rename_i a' ha
    rw [ha] at h
    cases h
  · split
    · rename_i i' hi
      rw [hi] at h2
      cases h2
    · rfl

theorem unwrap_idem (v : JSValue) : unwrap (unwrap v) = unwrap v := by
  induction v using unwrap.induct with
  | case1 fields a ha ih =>
    rw [unwrap_args ha, ih]
  | case2 fields ha i hi ih =>
    rw [unwrap_input ha hi, ih]
  | case3 fields ha hi =>
    rw [unwrap_obj_self ha hi, unwrap_obj_self ha hi]
  | case4 v hv =>
    rw [unwrap_nonobj v hv, unwrap_nonobj v hv]

theorem strOf_not_str {o : Option JSValue} (h : ∀ s, o ≠ some (.str s)) :
    strOf o = none := by
  cases o with
  | none => rfl
  | some v => cases v <;> first | rfl | exact absurd rfl (h _)

theorem numOf_not_num {o : Option JSValue} (h : ∀ n, o ≠ some (.num n)) :
    numOf o = none := by
  cases o with
  | none => rfl
  | some v => cases v <;> first | rfl | exact absurd rfl (h _)

theorem locateQuery_query {fields : List (String × JSValue)} {s : String}
    (hq : jlookup fields "query" = some (.str s)) :
    locateQuery (.obj fields) = some s := by
  simp [locateQuery, hq, strOf]

theorem locateQuery_q {fields : List (String × JSValue)} {t : String}
    (hq : ∀ s, jlookup fields "query" ≠ some (.str s))
    (hqq : jlookup fields "q" = some (.str t)) :
    locateQuery (.obj fields) = some t := by
  simp [locateQuery, strOf_not_str hq, hqq, strOf]

theorem topKOf_num {fields : List (String × JSValue)} {n : JSNum}
    (h : jlookup fields "topK" = some (.num n)) :
    topKOf fields = if n.isFinite then max 1 (min 20 n.trunc) else 8 := by
  simp [topKOf, numOf, h]

theorem topKOf_default {fields : List (String × JSValue)}
    (h : ∀ n, jlookup fields "topK" ≠ some (.num n)) :
    topKOf fields = 8 := by
  rw [topKOf, numOf_not_num h]

theorem normalizeSearch_obj (fields : List (String × JSValue))
    (hargs : jlookup fields "arguments" = none)
    (hinp : jlookup fields "input" = none) :
    normalizeSearchArgs (.obj fields) =
      (match locateQuery (.obj fields) with
        | some q => ⟨q, topKOf fields⟩
        | none => ⟨"", 8⟩) := by
  rw [normalizeSearchArgs, unwrap_obj_self hargs hinp]

/-- Claim C4: `normalizeSearch` recursively unwraps envelope keys in order
(`arguments` first, else `input`, else stop); after unwrapping a bare string
payload yields `{query: that string, topK: 8}`; an object's `query` field is
preferred over its `q` field as the query text; a numeric `topK` is truncated
to an integer and clamped into `[1, 20]`, and `topK` defaults to `8` when
absent, non-numeric, or non-finite; in particular
`normalizeSearch("hello") = {query: "hello", topK: 8}`,
`normalizeSearch({query: "x", topK: 99}) = {query: "x", topK: 20}`, and
`normalizeSearch({input: {q: "y"}}) = {query: "y", topK: 8}`. -/
theorem claim_C4 :
    (∀ fields a, jlookup fields "arguments" = some a →
      unwrap (.obj fields) = unwrap a)
    ∧ (∀ fields i, jlookup fields "arguments" = none →
      jlookup fields "input" = some i → unwrap (.obj fields) = unwrap i)
    ∧ (∀ fields, jlookup fields "arguments" = none →
      jlookup fields "input" = none → unwrap (.obj fields) = .obj fields)
    ∧ (∀ raw s, unwrap raw = .str s → normalizeSearchArgs raw = ⟨s, 8⟩)
    ∧ (∀ fields s, jlookup fields "arguments" = none →
      jlookup fields "input" = none →
      jlookup fields "query" = some (.str s) →
      (normalizeSearchArgs (.obj fields)).query = s)
    ∧ (∀ fields t, jlookup fields "arguments" = none →
      jlookup fields "input" = none →
      (∀ s, jlookup fields "query" ≠ some (.str s)) →
      jlookup fields "q" = some (.str t) →
      (normalizeSearchArgs (.obj fields)).query = t)
    ∧ (∀ fields s n, jlookup fields "arguments" = none →
      jlookup fields "input" = none →
      jlookup fields "query" = some (.str s) →
      jlookup fields "topK" = some (.num n) →
      (normalizeSearchArgs (.obj fields)).topK =
        (if n.isFinite then max 1 (min 20 n.trunc) else 8)
      ∧ 1 ≤ (normalizeSearchArgs (.obj fields)).topK
      ∧ (normalizeSearchArgs (.obj fields)).topK ≤ 20)
    ∧ (∀ fields s, jlookup fields "arguments" = none →
      jlookup fields "input" = none →
      jlookup fields "query" = some (.str s) →
      (∀ n, jlookup fields "topK" ≠ some (.num n)) →
      (normalizeSearchArgs (.obj fields)).topK = 8)
    ∧ normalizeSearchArgs (.str "hello") = ⟨"hello", 8⟩
    ∧ normalizeSearchArgs
        (.obj [("query", .str "x"), ("topK", .num (.finite 99))]) = ⟨"x", 20⟩
    ∧ normalizeSearchArgs (.obj [("input", .obj [("q", .str "y")])]) = ⟨"y", 8⟩ := by
  refine ⟨?_, ?_, ?_, ?_, ?_, ?_, ?_, ?_, ?_, ?_, ?_⟩
  · exact fun fields a h => unwrap_args h
  · exact fun fields i h h2 => unwrap_input h h2
  · exact fun fields h h2 => unwrap_obj_self h h2
  · intro raw s h
    rw [normalizeSearchArgs, h]
  · intro fields s hargs hinp hq
    rw [normalizeSearch_obj fields hargs hinp, locateQuery_query hq]
  · intro fields t hargs hinp hq hqq
    rw [normalizeSearch_obj fields hargs hinp, locateQuery_q hq hqq]
  · intro fields s n hargs hinp hq htk
    rw [normalizeSearch_obj fields hargs hinp, locateQuery_query hq,
      topKOf_num htk]
    refine ⟨rfl, ?_, ?_⟩
    · show 1 ≤ (if n.isFinite then max 1 (min 20 n.trunc) else 8)
      split
      · exact le_max_left _ _
      · norm_num
    · show (if n.isFinite then max 1 (min 20 n.trunc) else 8) ≤ 20
      split
      · exact max_le (by norm_num) (min_le_left _ _)
      · norm_num
  · intro fields s hargs hinp hq htk
    rw [normalizeSearch_obj fields hargs hinp, locateQuery_query hq,
      topKOf_default htk]
  · rw [normalizeSearchArgs, unwrap_nonobj _ (by intro _ h; cases h)]
  · rw [normalizeSearch_obj _ (by rfl) (by rfl), locateQuery_query (by rfl),
      topKOf_num (by rfl)]
    simp [JSNum.isFinite, JSNum.trunc]
  · rw [normalizeSearchArgs, unwrap_input (by rfl) (by rfl),
      unwrap_obj_self (by rfl) (by rfl)]
    simp [locateQuery, jlookup, topKOf, strOf, numOf]

/-- Witness for claim C4: the unwrap step, the bare-string shape, the
`query`-over-`q` preference, the numeric clamp bounds and the non-numeric
default, each instantiated at a concrete payload. -/
theorem claim_C4_witness :
    unwrap (.obj [("arguments", .str "z")]) = unwrap (.str "z")
    ∧ normalizeSearchArgs (.str "w") = ⟨"w", 8⟩
    ∧ (normalizeSearchArgs
        (.obj [("query", .num .nan), ("q", .str "y2")])).query = "y2"
    ∧ ((normalizeSearchArgs
          (.obj [("query", .str "x"), ("topK", .num (.finite (5 / 2)))])).topK =
        (if (JSNum.finite (5 / 2)).isFinite then
          max 1 (min 20 (JSNum.finite (5 / 2)).trunc) else 8)
      ∧ 1 ≤ (normalizeSearchArgs
          (.obj [("query", .str "x"), ("topK", .num (.finite (5 / 2)))])).topK
      ∧ (normalizeSearchArgs
          (.obj [("query", .str "x"),
            ("topK", .num (.finite (5 / 2)))])).topK ≤ 20)
    ∧ (normalizeSearchArgs
        (.obj [("query", .str "x2"), ("topK", .str "no")])).topK = 8 :=
  ⟨claim_C4.1 _ _ rfl,
   claim_C4.2.2.2.1 _ "w" (unwrap_nonobj _ (fun _ h => JSValue.noConfusion h)),
   claim_C4.2.2.2.2.2.1 _ "y2" rfl rfl (fun s h => by simp [jlookup] at h) rfl,
   claim_C4.2.2.2.2.2.2.1 _ "x" (.finite (5 / 2)) rfl rfl rfl rfl,
   claim_C4.2.2.2.2.2.2.2.1 _ "x2" rfl rfl rfl
     (fun n h => by simp [jlookup] at h)⟩

/-- Claim C5: for every search payload in which no string-valued query
(`query` or `q`) can be located after unwrapping, or whose located query is
empty after trimming, `search` returns the tagged error `invalid_query`, and
no embedding-provider call is made for that request — formalized as the
response being independent of the embedding function. -/
theorem claim_C5 (index : IndexFile)
    (embed₁ embed₂ : String → Except String (List ℝ)) (args : JSValue)
    (h : ∀ s, locateQuery (unwrap args) = some s → jsTrim s = "") :
    searchTool index embed₁ args =
      ⟨true, .errTag "invalid_query"
        "search arguments did not contain a valid query string"⟩
    ∧ searchTool index embed₁ args = searchTool index embed₂ args := by
  have hq : jsTrim (normalizeSearchArgs args).query = "" := by
    rw [normalizeSearchArgs]
    cases hu : unwrap args with
    | str s =>
      exact h s (by rw [hu]; rfl)
    | obj fields =>
      cases hl : locateQuery (.obj fields) with
      | some q =>
        simp only [hl]
        exact h q (by rw [hu]; exact hl)
      | none => simp only [hl]; rfl
    | _ => rfl
  constructor
  · rw [searchTool]
    simp [hq]
  · rw [searchTool, searchTool]
    simp [hq]

/-- Witness for claim C5: the empty object `{}` (the spec's rejected example)
yields `invalid_query` and the same response whether the embedding function
would succeed or fail, on a one-chunk-free index. -/
theorem claim_C5_witness :
    searchTool ⟨"m", []⟩ (fun _ => .ok [1]) (.obj []) =
      ⟨true, .errTag "invalid_query"
        "search arguments did not contain a valid query string"⟩
    ∧ searchTool ⟨"m", []⟩ (fun _ => .ok [1]) (.obj []) =
        searchTool ⟨"m", []⟩ (fun _ => .error "boom") (.obj []) :=
  claim_C5 _ _ _ _
    (fun s hs => by
      rw [@unwrap_obj_self [] rfl rfl] at hs
      simp [locateQuery, strOf, jlookup] at hs)

/-- Claim C9: `normalizeFetch` applies the same recursive envelope unwrapping
as `normalizeSearch` (both factor through the one `unwrap`, so both are
invariant under pre-unwrapping); after unwrapping, a bare string payload is
taken directly as the id and an object's string-valued `id` field is taken as
the id; every payload from which no non-empty id can be obtained this way is
rejected by `fetch` with the tagged error `invalid_id`. -/
theorem claim_C9 :
    (∀ raw, normalizeFetchArgs raw = normalizeFetchArgs (unwrap raw))
    ∧ (∀ raw, normalizeSearchArgs raw = normalizeSearchArgs (unwrap raw))
    ∧ (∀ raw s, unwrap raw = .str s → normalizeFetchArgs raw = s)
    ∧ (∀ fields s, jlookup fields "arguments" = none →
      jlookup fields "input" = none →
      jlookup fields "id" = some (.str s) →
      normalizeFetchArgs (.obj fields) = s)
    ∧ (∀ index args, normalizeFetchArgs args = "" →
      fetchTool index args =
        ⟨true, .errTag "invalid_id"
          "fetch arguments did not contain a valid id string"⟩) := by
  refine ⟨?_, ?_, ?_, ?_, ?_⟩
  · intro raw
    rw [normalizeFetchArgs, normalizeFetchArgs, unwrap_idem]
  · intro raw
    rw [normalizeSearchArgs, normalizeSearchArgs, unwrap_idem]
  · intro raw s h
    rw [normalizeFetchArgs, h]
  · intro fields s hargs hinp hid
    rw [normalizeFetchArgs, unwrap_obj_self hargs hinp]
    simp [hid, strOf]
  · intro index args h
    have ht : jsTrim "" = "" := rfl
    rw [fetchTool]
    simp [h, ht]

/-- Witness for claim C9: concrete instances of factoring through `unwrap`,
the bare-string id, the object id field, and the `invalid_id` rejection of
the empty object. -/
theorem claim_C9_witness :
    normalizeFetchArgs (.str "a") = normalizeFetchArgs (unwrap (.str "a"))
    ∧ (unwrap (.obj [("input", .str "b")]) = .str "b" →
        normalizeFetchArgs (.obj [("input", .str "b")]) = "b")
    ∧ normalizeFetchArgs (.obj [("id", .str "x")]) = "x"
    ∧ fetchTool ⟨"m", []⟩ (.obj []) =
        ⟨true, .errTag "invalid_id"
          "fetch arguments did not contain a valid id string"⟩ :=
  ⟨claim_C9.1 _,
   claim_C9.2.2.1 _ "b",
   claim_C9.2.2.2.1 _ "x" rfl rfl rfl,
   claim_C9.2.2.2.2 _ _ (by
    rw [normalizeFetchArgs, @unwrap_obj_self [] rfl rfl]
    rfl)⟩

/-- A concrete one-chunk index used by several witnesses. -/
def chunkA : IndexedChunk :=
  ⟨"a", "alpha text", ⟨"docs/api.md", "H", 0⟩, [1]⟩

/-- A concrete index file holding only `chunkA`. -/
def idx1 : IndexFile :=
  ⟨"text-embedding-3-small", [chunkA]⟩

/-- Counterexample to claim C1: on the index `idx1` (ids `{"a"}`) and the
payload `"b"` — a normalized non-empty id matching no chunk — the fetch
handler of `src/mcp_remote.ts` does return the structured not-found record,
but flags the response as a failure (`isError: true`), contradicting the
claim that the miss is a successful non-error response. -/
theorem claim_C1_cex :
    (fetchTool idx1 (.str "b")).isError = true
    ∧ (fetchTool idx1 (.str "b")).payload =
        .doc "b" "NOT_FOUND" "" DOC_BASE_URL (.errMeta "not_found") := by
  have hn : normalizeFetchArgs (.str "b") = "b" := by
    rw [normalizeFetchArgs, unwrap_nonobj _ (fun _ h => JSValue.noConfusion h)]
  have ht : jsTrim "b" = "b" := rfl
  have hb : (("a" : String) == "b") = false := rfl
  rw [fetchTool]
  simp [hn, ht, idx1, chunkA, List.find?, hb]

/-- Claim C1 as amended: for every fetch call whose normalized id is a
non-empty string not equal to the id of any chunk in the loaded index, the
result carries the structured not-found record
`{id, title: "NOT_FOUND", text: "", url, metadata: {error: "not_found"}}`,
returned with the error flag set (`isError: true`) like the tagged errors,
but distinguishable from `invalid_id` and `fetch_failed` by its payload
shape (a document record rather than an `{error, message}` object). -/
theorem claim_C1_amended (index : IndexFile) (args : JSValue)
    (hne : jsTrim (normalizeFetchArgs args) ≠ "")
    (hmiss : ∀ c ∈ index.chunks, c.id ≠ jsTrim (normalizeFetchArgs args)) :
    fetchTool index args =
      ⟨true, .doc (jsTrim (normalizeFetchArgs args)) "NOT_FOUND" ""
        DOC_BASE_URL (.errMeta "not_found")⟩
    ∧ (∀ e m, FetchPayload.doc (jsTrim (normalizeFetchArgs args)) "NOT_FOUND" ""
        DOC_BASE_URL (.errMeta "not_found") ≠ .errTag e m) := by
  constructor
  · have hfind : index.chunks.find?
        (fun c => c.id == jsTrim (normalizeFetchArgs args)) = none := by
      rw [List.find?_eq_none]
      intro c hc
      simpa using hmiss c hc
    rw [fetchTool]
    simp [hne, hfind]
  · intro e m h
    exact FetchPayload.noConfusion h

/-- Witness for the amended claim C1: fetching the unknown id `"missing"`
from `idx1` yields the flagged structured not-found record, which is not the
`invalid_id` tagged error. -/
theorem claim_C1_witness :
    fetchTool idx1 (.str "missing") =
      ⟨true, .doc (jsTrim (normalizeFetchArgs (.str "missing"))) "NOT_FOUND" ""
        DOC_BASE_URL (.errMeta "not_found")⟩
    ∧ FetchPayload.doc (jsTrim (normalizeFetchArgs (.str "missing")))
        "NOT_FOUND" "" DOC_BASE_URL (.errMeta "not_found") ≠
        .errTag "invalid_id" "fetch arguments did not contain a valid id string" := by
  have h : normalizeFetchArgs (.str "missing") = "missing" := by
    rw [normalizeFetchArgs, unwrap_nonobj _ (fun _ h => JSValue.noConfusion h)]
  have res := claim_C1_amended idx1 (.str "missing")
    (by rw [h]; decide)
    (by
      intro c hc
      simp [idx1, chunkA] at hc
      rw [h, hc]
      decide)
  exact ⟨res.1, res.2 _ _⟩

theorem dot_self_nonneg (v : List ℝ) : 0 ≤ dot v v := by
  unfold dot
  exact Finset.sum_nonneg fun i _ => mul_self_nonneg _

theorem dot_self_pos {v : List ℝ} (h : ∃ x ∈ v, x ≠ 0) : 0 < dot v v := by
  obtain ⟨x, hx, hx0⟩ := h
  obtain ⟨⟨i, hi⟩, hgi⟩ := List.mem_iff_get.mp hx
  unfold dot
  apply Finset.sum_pos'
  · exact fun j _ => mul_self_nonneg _
  · refine ⟨i, Finset.mem_range.mpr hi, ?_⟩
    rw [List.getD_eq_getElem _ _ hi]
    have : v[i] = x := hgi
    rw [this]
    exact mul_self_pos.mpr hx0

theorem norm_pos {v : List ℝ} (h : ∃ x ∈ v, x ≠ 0) : 0 < norm v := by
  rw [norm]
  exact Real.sqrt_pos.mpr (dot_self_pos h)

theorem dot_replicate_self (n : ℕ) :
    dot (List.replicate n (0 : ℝ)) (List.replicate n 0) = 0 := by
  unfold dot
  apply Finset.sum_eq_zero
  intro i hi
  have hi' : i < (List.replicate n (0 : ℝ)).length := by
    simpa using Finset.mem_range.mp hi
  rw [List.getD_eq_getElem _ _ hi']
  simp

theorem norm_replicate (n : ℕ) : norm (List.replicate n (0 : ℝ)) = 0 := by
  rw [norm, dot_replicate_self, Real.sqrt_zero]

theorem dot_comm_of_length {a b : List ℝ} (h : a.length = b.length) :
    dot a b = dot b a := by
  unfold dot
  rw [h]
  exact Finset.sum_congr rfl fun i _ => mul_comm _ _

theorem cosineSim_def (a b : List ℝ) :
    cosineSim a b =
      if norm a = 0 ∨ norm b = 0 then 0 else dot a b / (norm a * norm b) := rfl

/-- Claim C7: the similarity function satisfies `similarity(v, v) = 1` for
every non-zero vector `v`; `similarity` with a zero vector on either side is
defined as `0` (not NaN, not an error, whenever either argument's norm is
exactly zero); and `similarity` is symmetric for equal-length vectors. -/
theorem claim_C7 :
    (∀ v : List ℝ, (∃ x ∈ v, x ≠ 0) → cosineSim v v = 1)
    ∧ (∀ (v : List ℝ) (n : ℕ),
        cosineSim v (List.replicate n 0) = 0
        ∧ cosineSim (List.replicate n 0) v = 0)
    ∧ (∀ a b : List ℝ, norm a = 0 ∨ norm b = 0 → cosineSim a b = 0)
    ∧ (∀ a b : List ℝ, a.length = b.length → cosineSim a b = cosineSim b a) := by
  refine ⟨?_, ?_, ?_, ?_⟩
  · intro v hv
    have hd := dot_self_pos hv
    have hn := norm_pos hv
    rw [cosineSim_def]
    rw [if_neg (by push_neg; exact ⟨ne_of_gt hn, ne_of_gt hn⟩)]
    rw [norm, Real.mul_self_sqrt (dot_self_nonneg v)]
    exact div_self (ne_of_gt hd)
  · intro v n
    constructor
    · rw [cosineSim_def]
      rw [if_pos (Or.inr (norm_replicate n))]
    · rw [cosineSim_def]
      rw [if_pos (Or.inl (norm_replicate n))]
  · intro a b h
    rw [cosineSim_def]
    rw [if_pos h]
  · intro a b h
    rw [cosineSim_def, cosineSim_def, dot_comm_of_length h,
      mul_comm (norm a) (norm b)]
    exact if_congr or_comm rfl rfl

/-- Witness for claim C7: self-similarity of `[1]` is `1`, zero vectors on
either side give `0`, and symmetry at a concrete pair of vectors. -/
theorem claim_C7_witness :
    cosineSim [(1 : ℝ)] [1] = 1
    ∧ cosineSim [(1 : ℝ)] (List.replicate 1 0) = 0
    ∧ cosineSim [(0 : ℝ)] [5] = 0
    ∧ cosineSim [(1 : ℝ), 2] [2, 1] = cosineSim [(2 : ℝ), 1] [1, 2] := by
  refine ⟨?_, ?_, ?_, ?_⟩
  · exact claim_C7.1 [1] ⟨1, by simp, one_ne_zero⟩
  · exact (claim_C7.2.1 [1] 1).1
  · refine claim_C7.2.2.1 [0] [5] (Or.inl ?_)
    have : ([(0 : ℝ)]) = List.replicate 1 0 := rfl
    rw [this]
    exact norm_replicate 1
  · exact claim_C7.2.2.2 [1, 2] [2, 1] rfl

/-- Counterexample to claim C3: at the concrete unequal-length pair
`a = [1]`, `b = [1, 5]` no error is signaled: `dot` returns the same value as
on the truncated pair `[1], [1]` (the second vector's extra entry is silently
ignored), and `cosineSim` returns the plain value `1 / √26`. -/
theorem claim_C3_cex :
    [(1 : ℝ)].length ≠ [(1 : ℝ), 5].length
    ∧ dot [(1 : ℝ)] [1, 5] = dot [(1 : ℝ)] [1]
    ∧ cosineSim [(1 : ℝ)] [1, 5] = 1 / Real.sqrt 26 := by
  have hd1 : dot [(1 : ℝ)] [1, 5] = 1 := by
    unfold dot
    simp
  have hd2 : dot [(1 : ℝ)] [1] = 1 := by
    unfold dot
    simp
  have hdself : dot [(1 : ℝ), 5] [1, 5] = 26 := by
    unfold dot
    simp [Finset.sum_range_succ]
    norm_num
  refine ⟨by simp, by rw [hd1, hd2], ?_⟩
  rw [cosineSim_def, norm, norm, hd2, hdself, Real.sqrt_one]
  rw [if_neg]
  · rw [hd1, one_mul]
  · push_neg
    refine ⟨one_ne_zero, ?_⟩
    exact ne_of_gt (Real.sqrt_pos.mpr (by norm_num))

/-- Claim C3 as amended: the similarity computation performs no length check
and signals no error on unequal-length vectors; the `dot` loop runs over the
first vector's indices only, so when the first vector is at most as long as
the second, the second vector is silently truncated to the first's length
(appending extra entries to the second vector never changes the result). -/
theorem claim_C3_amended (a b : List ℝ) (h : a.length ≤ b.length) :
    dot a b = dot a (b.take a.length)
    ∧ (∀ extra : List ℝ, dot a (b ++ extra) = dot a b) := by
  constructor
  · unfold dot
    apply Finset.sum_congr rfl
    intro i hi
    have hia : i < a.length := Finset.mem_range.mp hi
    have hib : i < b.length := lt_of_lt_of_le hia h
    have hit : i < (b.take a.length).length := by
      simp
      omega
    rw [List.getD_eq_getElem b _ hib, List.getD_eq_getElem _ _ hit,
      List.getElem_take]
  · intro extra
    unfold dot
    apply Finset.sum_congr rfl
    intro i hi
    have hia : i < a.length := Finset.mem_range.mp hi
    have hib : i < b.length := lt_of_lt_of_le hia h
    have hie : i < (b ++ extra).length := by
      simp
      omega
    rw [List.getD_eq_getElem b _ hib, List.getD_eq_getElem _ _ hie,
      List.getElem_append_left]

/-- Witness for the amended claim C3: the pair `[1]`, `[1, 5]` with one extra
appended entry. -/
theorem claim_C3_witness :
    dot [(1 : ℝ)] [1, 5] = dot [(1 : ℝ)] ([1, 5].take [(1 : ℝ)].length)
    ∧ dot [(1 : ℝ)] ([1, 5] ++ [7]) = dot [(1 : ℝ)] [1, 5] :=
  ⟨(claim_C3_amended [1] [1, 5] (by norm_num)).1,
   (claim_C3_amended [1] [1, 5] (by norm_num)).2 [7]⟩

theorem mcpRank_length (qEmb : List ℝ) (chunks : List IndexedChunk) (k : ℕ) :
    (mcpRank qEmb chunks k).length = min k chunks.length := by
  rw [mcpRank, List.length_take, List.length_insertionSort, List.length_map]

theorem srvRank_length (qEmb : List ℝ) (chunks : List IndexedChunk)
    (query : String) (k : ℕ) :
    (srvRank qEmb chunks query k).length = min k chunks.length := by
  rw [srvRank, List.length_take, List.length_insertionSort, List.length_map]

theorem mcpRank_sorted (qEmb : List ℝ) (chunks : List IndexedChunk) (k : ℕ) :
    List.Sorted byWeightedDesc (mcpRank qEmb chunks k) :=
  List.Pairwise.sublist (List.take_sublist _ _)
    (List.sorted_insertionSort byWeightedDesc _)

theorem srvRank_sorted (qEmb : List ℝ) (chunks : List IndexedChunk)
    (query : String) (k : ℕ) :
    List.Sorted byWeightedDesc (srvRank qEmb chunks query k) :=
  List.Pairwise.sublist (List.take_sublist _ _)
    (List.sorted_insertionSort byWeightedDesc _)

theorem mcpRank_mem {qEmb : List ℝ} {chunks : List IndexedChunk} {k : ℕ}
    {e : Scored} (he : e ∈ mcpRank qEmb chunks k) :
    ∃ c ∈ chunks, e =
      ⟨c, cosineSim qEmb c.embedding,
        cosineSim qEmb c.embedding * sourceWeight c.meta.source⟩ := by
  rw [mcpRank] at he
  have h1 := List.mem_of_mem_take he
  rw [List.mem_insertionSort] at h1
  obtain ⟨c, hc, rfl⟩ := List.mem_map.mp h1
  exact ⟨c, hc, rfl⟩

theorem srvRank_mem {qEmb : List ℝ} {chunks : List IndexedChunk}
    {query : String} {k : ℕ} {e : Scored}
    (he : e ∈ srvRank qEmb chunks query k) :
    ∃ c ∈ chunks, e =
      ⟨c, cosineSim qEmb c.embedding,
        cosineSim qEmb c.embedding * srvSourceWeight c.meta.source *
          headingWeight c.meta.heading query⟩ := by
  rw [srvRank] at he
  have h1 := List.mem_of_mem_take he
  rw [List.mem_insertionSort] at h1
  obtain ⟨c, hc, rfl⟩ := List.mem_map.mp h1
  exact ⟨c, hc, rfl⟩

/-- Claim C6: the ranking pipeline returns at most `topK` results, the
returned results are sorted by `weightedScore` descending, and two calls with
identical inputs return identical results (deterministic tie-breaking: the
embedding is a pure function of its inputs, so determinism is congruence). -/
theorem claim_C6 :
    (∀ (qEmb : List ℝ) (chunks : List IndexedChunk) (topK : ℕ),
      (mcpRank qEmb chunks topK).length ≤ topK)
    ∧ (∀ (qEmb : List ℝ) (chunks : List IndexedChunk) (topK : ℕ),
      List.Sorted byWeightedDesc (mcpRank qEmb chunks topK))
    ∧ (∀ (q₁ q₂ : List ℝ) (c₁ c₂ : List IndexedChunk) (k₁ k₂ : ℕ),
      q₁ = q₂ → c₁ = c₂ → k₁ = k₂ → mcpRank q₁ c₁ k₁ = mcpRank q₂ c₂ k₂) := by
  refine ⟨?_, mcpRank_sorted, ?_⟩
  · intro qEmb chunks topK
    rw [mcpRank_length]
    exact min_le_left _ _
  · intro q₁ q₂ c₁ c₂ k₁ k₂ hq hc hk
    rw [hq, hc, hk]

/-- Witness for claim C6: the determinism conjunct at a concrete call. -/
theorem claim_C6_witness :
    mcpRank [(1 : ℝ)] [chunkA] 1 = mcpRank [(1 : ℝ)] [chunkA] 1 :=
  claim_C6.2.2 _ _ _ _ _ _ rfl rfl rfl

/-- A chunk whose heading matches the retry keyword family, used to expose
the missing heading weight of the MCP scoring. -/
def chunkR : IndexedChunk :=
  ⟨"r", "retry text", ⟨"docs/api.md", "リトライ", 0⟩, [1]⟩

theorem cosineSim_one_one : cosineSim [(1 : ℝ)] [1] = 1 := by
  have hd : dot [(1 : ℝ)] [1] = 1 := by unfold dot; simp
  rw [cosineSim_def, norm, hd, Real.sqrt_one]
  rw [if_neg (by push_neg; exact ⟨one_ne_zero, one_ne_zero⟩)]
  norm_num

theorem sourceWeight_api : sourceWeight "docs/api.md" = 1.15 := by
  rw [sourceWeight, if_pos rfl]

theorem sourceWeight_faq : sourceWeight "docs/faq.md" = 0.95 := by
  simp [sourceWeight]

theorem headingWeight_retry : headingWeight "リトライ" "リトライ" = 1.35 := by
  rw [headingWeight, if_pos (by decide)]

/-- Counterexample to claim C2: in the MCP server's ranking
(`src/mcp_remote.ts`), the weighted score of a chunk whose heading and query
both contain the retry keyword is `raw * sourceWeight` only (`1.15` here),
which differs from the claimed `raw * sourceWeight * headingWeight`
(`1 * 1.15 * 1.35`): the heading weight is not applied in that file. -/
theorem claim_C2_cex :
    (mcpRank [(1 : ℝ)] [chunkR] 1).map (fun s => s.weighted) = [1.15]
    ∧ (1.15 : ℝ) ≠
        cosineSim [(1 : ℝ)] chunkR.embedding * sourceWeight chunkR.meta.source *
          headingWeight chunkR.meta.heading "リトライ" := by
  constructor
  · show List.map _ (List.take 1 (List.insertionSort _ (List.map _ [chunkR]))) = _
    rw [List.map, List.map]
    rw [List.insertionSort, List.insertionSort, List.orderedInsert]
    rw [List.take, List.take]
    rw [List.map, List.map]
    show [cosineSim [(1 : ℝ)] chunkR.embedding * sourceWeight chunkR.meta.source] = _
    rw [show chunkR.embedding = [(1 : ℝ)] from rfl,
      show chunkR.meta.source = "docs/api.md" from rfl,
      cosineSim_one_one, sourceWeight_api, one_mul]
  · rw [show chunkR.embedding = [(1 : ℝ)] from rfl,
      show chunkR.meta.source = "docs/api.md" from rfl,
      show chunkR.meta.heading = "リトライ" from rfl,
      cosineSim_one_one, sourceWeight_api, headingWeight_retry]
    norm_num

/-- Claim C2 as amended: in `scripts/server.ts` (and `scripts/search.ts`) the
ranker scores every chunk with
`weighted = raw * sourceWeight(source) * headingWeight(heading, query)`,
sorts by `weighted` descending and takes the first `topK`; in the MCP server
`src/mcp_remote.ts` the heading weight is not applied:
`weighted = raw * sourceWeight(source)` there, with the same sort and cut. -/
theorem claim_C2_amended :
    (∀ (qEmb : List ℝ) (chunks : List IndexedChunk) (query : String) (topK : ℕ),
      (∀ e ∈ srvRank qEmb chunks query topK,
        e.score = cosineSim qEmb e.chunk.embedding
        ∧ e.weighted = e.score * srvSourceWeight e.chunk.meta.source *
            headingWeight e.chunk.meta.heading query)
      ∧ List.Sorted byWeightedDesc (srvRank qEmb chunks query topK)
      ∧ (srvRank qEmb chunks query topK).length = min topK chunks.length)
    ∧ (∀ (qEmb : List ℝ) (chunks : List IndexedChunk) (topK : ℕ),
      (∀ e ∈ mcpRank qEmb chunks topK,
        e.score = cosineSim qEmb e.chunk.embedding
        ∧ e.weighted = e.score * sourceWeight e.chunk.meta.source)
      ∧ List.Sorted byWeightedDesc (mcpRank qEmb chunks topK)
      ∧ (mcpRank qEmb chunks topK).length = min topK chunks.length) := by
  constructor
  · intro qEmb chunks query topK
    refine ⟨?_, srvRank_sorted qEmb chunks query topK,
      srvRank_length qEmb chunks query topK⟩
    intro e he
    obtain ⟨c, _, rfl⟩ := srvRank_mem he
    exact ⟨rfl, rfl⟩
  · intro qEmb chunks topK
    refine ⟨?_, mcpRank_sorted qEmb chunks topK, mcpRank_length qEmb chunks topK⟩
    intro e he
    obtain ⟨c, _, rfl⟩ := mcpRank_mem he
    exact ⟨rfl, rfl⟩

/-- Witness for the amended claim C2: a concrete member of a concrete MCP
ranking, whose `score` field is the cosine similarity of the query vector and
the chunk's embedding. -/
theorem claim_C2_witness :
    (⟨chunkA, cosineSim [(1 : ℝ)] chunkA.embedding,
        cosineSim [(1 : ℝ)] chunkA.embedding *
          sourceWeight chunkA.meta.source⟩ : Scored) ∈
      mcpRank [(1 : ℝ)] [chunkA] 1
    ∧ (⟨chunkA, cosineSim [(1 : ℝ)] chunkA.embedding,
        cosineSim [(1 : ℝ)] chunkA.embedding *
          sourceWeight chunkA.meta.source⟩ : Scored).score =
        cosineSim [(1 : ℝ)]
          (⟨chunkA, cosineSim [(1 : ℝ)] chunkA.embedding,
            cosineSim [(1 : ℝ)] chunkA.embedding *
              sourceWeight chunkA.meta.source⟩ : Scored).chunk.embedding := by
  have hmem : (⟨chunkA, cosineSim [(1 : ℝ)] chunkA.embedding,
      cosineSim [(1 : ℝ)] chunkA.embedding *
        sourceWeight chunkA.meta.source⟩ : Scored) ∈
      mcpRank [(1 : ℝ)] [chunkA] 1 :=
    List.mem_singleton_self _
  exact ⟨hmem, ((claim_C2_amended.2 [1] [chunkA] 1).1 _ hmem).1⟩

/-- A faq-source chunk used by the C8 ranking analysis. -/
def chunkF : IndexedChunk :=
  ⟨"f", "faq text", ⟨"docs/faq.md", "H", 0⟩, [1]⟩

theorem cosineSim_negone_one : cosineSim [(-1 : ℝ)] [1] = -1 := by
  have hd : dot [(-1 : ℝ)] [1] = -1 := by unfold dot; simp
  have hs : dot [(-1 : ℝ)] [(-1 : ℝ)] = 1 := by unfold dot; simp
  have hs1 : dot [(1 : ℝ)] [(1 : ℝ)] = 1 := by unfold dot; simp
  rw [cosineSim_def, norm, norm, hs, hs1, Real.sqrt_one]
  rw [if_neg (by push_neg; exact ⟨one_ne_zero, one_ne_zero⟩)]
  rw [hd]
  norm_num

theorem mcpRank_pair_first (c₁ c₂ : IndexedChunk) (qEmb : List ℝ) (k : ℕ)
    (h : cosineSim qEmb c₂.embedding * sourceWeight c₂.meta.source ≤
      cosineSim qEmb c₁.embedding * sourceWeight c₁.meta.source) :
    (mcpRank qEmb [c₁, c₂] (k + 1)).head?.map (fun s => s.chunk) = some c₁ := by
  rw [mcpRank]
  simp only [List.map_cons, List.map_nil, List.insertionSort, List.orderedInsert]
  split
  · simp
  · rename_i hc
    exact absurd h hc

theorem mcpRank_pair_second (c₁ c₂ : IndexedChunk) (qEmb : List ℝ) (k : ℕ)
    (h : ¬ (cosineSim qEmb c₂.embedding * sourceWeight c₂.meta.source ≤
      cosineSim qEmb c₁.embedding * sourceWeight c₁.meta.source)) :
    (mcpRank qEmb [c₁, c₂] (k + 1)).head?.map (fun s => s.chunk) = some c₂ := by
  rw [mcpRank]
  simp only [List.map_cons, List.map_nil, List.insertionSort, List.orderedInsert]
  split
  · rename_i hc
    exact absurd hc h
  · simp

/-- Counterexample to claim C8: with equal negative raw similarity (`-1` to
both chunks), the multiplicative weights amplify the negative scores, so the
`0.95`-weighted faq chunk (`-0.95`) ranks before the `1.15`-weighted api
chunk (`-1.15`) — the claim only holds for positive raw similarity. -/
theorem claim_C8_cex :
    cosineSim [(-1 : ℝ)] chunkA.embedding = cosineSim [(-1 : ℝ)] chunkF.embedding
    ∧ (mcpRank [(-1 : ℝ)] [chunkA, chunkF] 2).map (fun s => s.chunk.id) =
        ["f", "a"] := by
  have hA : chunkA.embedding = [(1 : ℝ)] := rfl
  have hF : chunkF.embedding = [(1 : ℝ)] := rfl
  have hwA : cosineSim [(-1 : ℝ)] chunkA.embedding *
      sourceWeight chunkA.meta.source = -1.15 := by
    rw [hA, cosineSim_negone_one, show chunkA.meta.source = "docs/api.md" from rfl,
      sourceWeight_api]
    norm_num
  have hwF : cosineSim [(-1 : ℝ)] chunkF.embedding *
      sourceWeight chunkF.meta.source = -0.95 := by
    rw [hF, cosineSim_negone_one, show chunkF.meta.source = "docs/faq.md" from rfl,
      sourceWeight_faq]
    norm_num
  constructor
  · rw [hA, hF]
  · rw [mcpRank]
    simp only [List.map_cons, List.map_nil, List.insertionSort, List.orderedInsert]
    split
    · rename_i hc
      have hc' : cosineSim [(-1 : ℝ)] chunkF.embedding *
          sourceWeight chunkF.meta.source ≤
          cosineSim [(-1 : ℝ)] chunkA.embedding *
            sourceWeight chunkA.meta.source := hc
      rw [hwA, hwF] at hc'
      norm_num at hc'
    · simp [chunkA, chunkF]

/-- Claim C8 as amended: for an index holding one chunk from the
`1.15`-weighted source and one from the `0.95`-weighted source, in either
order, and a query vector with equal POSITIVE raw cosine similarity to both
embeddings, the `1.15`-weighted chunk ranks first; for negative equal
similarity the order reverses (see the counterexample), as the spec's own
numeric-semantics note says weights amplify either sign. -/
theorem claim_C8_amended (a f : IndexedChunk) (qEmb : List ℝ) (r : ℝ) (k : ℕ)
    (ha : a.meta.source = "docs/api.md") (hf : f.meta.source = "docs/faq.md")
    (hra : cosineSim qEmb a.embedding = r) (hrf : cosineSim qEmb f.embedding = r)
    (hr : 0 < r) (hk : 1 ≤ k) :
    (mcpRank qEmb [a, f] k).head?.map (fun s => s.chunk) = some a
    ∧ (mcpRank qEmb [f, a] k).head?.map (fun s => s.chunk) = some a := by
  obtain ⟨k', rfl⟩ : ∃ k', k = k' + 1 := ⟨k - 1, by omega⟩
  have hwa : cosineSim qEmb a.embedding * sourceWeight a.meta.source = r * 1.15 := by
    rw [hra, ha, sourceWeight_api]
  have hwf : cosineSim qEmb f.embedding * sourceWeight f.meta.source = r * 0.95 := by
    rw [hrf, hf, sourceWeight_faq]
  constructor
  · apply mcpRank_pair_first
    rw [hwa, hwf]
    nlinarith
  · apply mcpRank_pair_second
    rw [hwa, hwf]
    intro hle
    nlinarith

/-- Witness for the amended claim C8: api and faq chunks with equal raw
similarity `1 > 0`, in both index orders, rank the api chunk first. -/
theorem claim_C8_witness :
    (mcpRank [(1 : ℝ)] [chunkA, chunkF] 1).head?.map (fun s => s.chunk) =
      some chunkA
    ∧ (mcpRank [(1 : ℝ)] [chunkF, chunkA] 1).head?.map (fun s => s.chunk) =
      some chunkA :=
  claim_C8_amended chunkA chunkF [1] 1 1 rfl rfl
    (by rw [show chunkA.embedding = [(1 : ℝ)] from rfl, cosineSim_one_one])
    (by rw [show chunkF.embedding = [(1 : ℝ)] from rfl, cosineSim_one_one])
    (by norm_num) (le_refl 1)

theorem searchTool_def (index : IndexFile)
    (embed : String → Except String (List ℝ)) (args : JSValue) :
    searchTool index embed args =
      if jsTrim (normalizeSearchArgs args).query = "" then
        ⟨true, .errTag "invalid_query"
          "search arguments did not contain a valid query string"⟩
      else
        match embed (jsTrim (normalizeSearchArgs args).query) with
        | .error m => ⟨true, .errTag "search_failed" m⟩
        | .ok qEmb =>
          ⟨false, .results
            ((mcpRank qEmb index.chunks
                (normalizeSearchArgs args).topK.toNat).map fun s =>
              ⟨s.chunk.id,
               s.chunk.meta.heading ++ " (" ++ s.chunk.meta.source ++ ")",
               canonicalUrlFor s.chunk.meta⟩)⟩ := rfl

/-- Claim C10: for every loaded index and every search call whose query
normalizes to a non-empty string and whose embedding call succeeds, the
returned result list has exactly `min(topK, number of chunks)` entries — no
minimum-similarity threshold exists, so the count never depends on the
scores. -/
theorem claim_C10 (index : IndexFile)
    (embed : String → Except String (List ℝ)) (args : JSValue) (qEmb : List ℝ)
    (hq : jsTrim (normalizeSearchArgs args).query ≠ "")
    (hemb : embed (jsTrim (normalizeSearchArgs args).query) = .ok qEmb)
    (hne : 1 ≤ index.chunks.length) :
    ∃ rs, searchTool index embed args = ⟨false, .results rs⟩
      ∧ rs.length =
          min (normalizeSearchArgs args).topK.toNat index.chunks.length := by
  rw [searchTool_def, if_neg hq, hemb]
  refine ⟨_, rfl, ?_⟩
  rw [List.length_map, mcpRank_length]

/-- Witness for claim C10: searching `"hi"` on the one-chunk index `idx1`
with a successfully embedding provider yields a successful result list of
length `min 8 1 = 1`. -/
theorem claim_C10_witness :
    ∃ rs, searchTool idx1 (fun _ => .ok [1]) (.str "hi") = ⟨false, .results rs⟩
      ∧ rs.length =
          min (normalizeSearchArgs (.str "hi")).topK.toNat idx1.chunks.length := by
  have h : normalizeSearchArgs (.str "hi") = ⟨"hi", 8⟩ := by
    rw [normalizeSearchArgs, unwrap_nonobj _ (fun _ h => JSValue.noConfusion h)]
  exact claim_C10 idx1 (fun _ => .ok [1]) (.str "hi") [1]
    (by rw [h]; decide) rfl (by simp [idx1])

end RagMcp
